import Mathlib

/-!
Verification of the flexx base `Widget` class (`flexx/ui/_widget.py`):
the virtual-node reconciliation engine, the parent/child hierarchy action
`set_parent`, the mouse-capture input state machine, and the normalized
mouse/wheel event records.

Real DOM nodes live in a heap (`Heap`) indexed by `Nat` ids, so that node
identity (`is` checks in the source) is meaningful.  Virtual nodes are the
dict values produced by `create_element` / `_render_dom`.
-/

namespace Flexx

/-- A JS value carried in virtual-node props. -/
inductive JsVal : Type where
  | vstr (s : String)
  | vnum (q : Rat)
  | vbool (b : Bool)
deriving DecidableEq, Repr

mutual

/-- A value that `Widget.__render_resolve` may receive as `vnode`:
a real DOM node (passed through by identity), a plain string, a
python list (always a `TypeError` there), or a virtual-node dict
`{type, props, children}`. -/
inductive VNode : Type where
  | real (id : Nat)
  | vtext (s : String)
  | vlist (l : VNodeList)
  | velem (type : String) (props : List (String × JsVal)) (children : VChildren)
deriving DecidableEq, Repr

/-- The `children` field of a virtual-node dict: `None` (do not touch),
a string (inner HTML), or an ordered list of child virtual nodes. -/
inductive VChildren : Type where
  | cnone
  | cstr (s : String)
  | clist (l : VNodeList)
deriving DecidableEq, Repr

/-- A list of virtual nodes (children sequence). -/
inductive VNodeList : Type where
  | nil
  | cons (v : VNode) (tl : VNodeList)
deriving DecidableEq, Repr

end

/-- Length of a virtual-node list (`len(vnode.children)`). -/
def VNodeList.length : VNodeList → Nat
  | .nil => 0
  | .cons _ tl => 1 + tl.length

/-- The data of one real DOM node: tag name, assigned properties (keyed by
the navigated path), inner HTML and the ordered child list (node ids). -/
structure RNode : Type where
  nodeName : String
  props : List (List String × JsVal)
  innerHTML : String
  childNodes : List Nat
deriving DecidableEq, Repr

instance : Inhabited RNode :=
  ⟨{ nodeName := "", props := [], innerHTML := "", childNodes := [] }⟩

/-- The heap of real DOM nodes; a node id is an index into `nodes`. -/
structure Heap : Type where
  nodes : List RNode
deriving DecidableEq, Repr

namespace Heap

/-- Read a node; a dangling id reads as the default (empty) node. -/
def get (h : Heap) (i : Nat) : RNode := h.nodes.getD i default

/-- Write a node (no-op on a dangling id, like `List.set`). -/
def set (h : Heap) (i : Nat) (d : RNode) : Heap := ⟨h.nodes.set i d⟩

/-- `window.document.createElement(tag)`: allocate a fresh node. -/
def createElement (h : Heap) (t : String) : Nat × Heap :=
  (h.nodes.length,
   ⟨h.nodes ++ [{ nodeName := t, props := [], innerHTML := "", childNodes := [] }]⟩)

/-- `node.removeChild(c)`: remove the first occurrence of `c` from
`node`'s child list. -/
def removeChild (h : Heap) (p c : Nat) : Heap :=
  h.set p { h.get p with childNodes := (h.get p).childNodes.erase c }

/-- Detach a node from every child list (a DOM node has at most one
parent; inserting it elsewhere moves it). -/
def detach (h : Heap) (c : Nat) : Heap :=
  ⟨h.nodes.map (fun nd => { nd with childNodes := nd.childNodes.filter (· ≠ c) })⟩

/-- `node.appendChild(c)`: move `c` to the end of `node`'s child list. -/
def appendChild (h : Heap) (p c : Nat) : Heap :=
  let h1 := h.detach c
  h1.set p { h1.get p with childNodes := (h1.get p).childNodes ++ [c] }

/-- `node.insertBefore(c, ref)`: move `c` directly before `ref` in
`node`'s child list (at the end when `ref` is not present). -/
def insertBefore (h : Heap) (p c ref : Nat) : Heap :=
  let h1 := h.detach c
  let l := (h1.get p).childNodes
  let i := l.findIdx (· = ref)
  h1.set p { h1.get p with childNodes := l.take i ++ [c] ++ l.drop i }

/-- `node.innerHTML = s`: replace the node's entire content. -/
def setInnerHTML (h : Heap) (n : Nat) (s : String) : Heap :=
  h.set n { h.get n with innerHTML := s, childNodes := [] }

theorem length_set (h : Heap) (i : Nat) (d : RNode) :
    (h.set i d).nodes.length = h.nodes.length := by
  simp [set]

theorem get_set_self (h : Heap) (i : Nat) (d : RNode) (hi : i < h.nodes.length) :
    (h.set i d).get i = d := by
  unfold get set
  rw [List.getD_eq_getElem _ _ (by simpa using hi)]
  simp

theorem get_set_ne (h : Heap) (i j : Nat) (d : RNode) (hij : i ≠ j) :
    (h.set i d).get j = h.get j := by
  unfold get set
  simp [List.getD_eq_getElem?_getD, List.getElem?_set_ne hij]

theorem get_of_le (h : Heap) (i : Nat) (hi : h.nodes.length ≤ i) :
    h.get i = default :=
  List.getD_eq_default _ _ hi

theorem lt_of_childNodes_ne_nil (h : Heap) (i : Nat)
    (hne : (h.get i).childNodes ≠ []) : i < h.nodes.length := by
  by_contra hge
  push_neg at hge
  rw [get_of_le h i hge] at hne
  exact hne rfl

/-- `removeChild` of an actual member shortens the child list by one. -/
theorem childNodes_removeChild_self (h : Heap) (p : Nat) {c : Nat}
    (hmem : c ∈ (h.get p).childNodes) :
    ((h.removeChild p c).get p).childNodes = (h.get p).childNodes.erase c := by
  have hp : p < h.nodes.length := by
    apply lt_of_childNodes_ne_nil
    intro hnil
    rw [hnil] at hmem
    exact absurd hmem (List.not_mem_nil c)
  unfold removeChild
  rw [get_set_self _ _ _ hp]

/-- Full description of `get` after `set`. -/
theorem get_set (h : Heap) (i : Nat) (d : RNode) (j : Nat) :
    (h.set i d).get j = if i = j ∧ i < h.nodes.length then d else h.get j := by
  by_cases hij : i = j
  · subst hij
    by_cases hi : i < h.nodes.length
    · simp [hi, get_set_self h i d hi]
    · have : h.set i d = h := by
        unfold set
        rw [List.set_eq_of_length_le (by omega)]
      simp [hi, this]
  · simp [hij, get_set_ne h i j d hij]

theorem fst_createElement (h : Heap) (t : String) :
    (h.createElement t).1 = h.nodes.length := rfl

theorem length_createElement (h : Heap) (t : String) :
    (h.createElement t).2.nodes.length = h.nodes.length + 1 := by
  simp [createElement]

/-- Full description of `get` after `createElement`. -/
theorem get_createElement (h : Heap) (t : String) (i : Nat) :
    (h.createElement t).2.get i =
      if i = h.nodes.length then
        { nodeName := t, props := [], innerHTML := "", childNodes := [] }
      else h.get i := by
  unfold createElement get
  rcases Nat.lt_trichotomy i h.nodes.length with hi | hi | hi
  · rw [if_neg (by omega)]
    simp [List.getD_eq_getElem?_getD, List.getElem?_append_left hi]
  · subst hi
    simp
  · rw [if_neg (by omega)]
    rw [List.getD_eq_default _ _ (by simpa using (by omega : h.nodes.length + 1 ≤ i)),
      List.getD_eq_default _ _ (by omega)]

theorem length_detach (h : Heap) (c : Nat) :
    (h.detach c).nodes.length = h.nodes.length := by
  simp [detach]

/-- Full description of `get` after `detach`. -/
theorem get_detach (h : Heap) (c : Nat) (i : Nat) :
    (h.detach c).get i =
      { h.get i with childNodes := (h.get i).childNodes.filter (· ≠ c) } := by
  unfold detach get
  by_cases hi : i < h.nodes.length
  · simp [List.getD_eq_getElem?_getD, List.getElem?_map,
      List.getElem?_eq_getElem hi]
  · rw [List.getD_eq_default _ _ (by simpa using Nat.le_of_not_lt hi),
      List.getD_eq_default _ _ (Nat.le_of_not_lt hi)]
    rfl

end Heap

/-- Python `key.replace('__', '.')`: replace every (left-to-right,
non-overlapping) occurrence of `"__"` by `"."`. -/
def dunderToDot : List Char → List Char
  | [] => []
  | '_' :: '_' :: rest => '.' :: dunderToDot rest
  | c :: rest => c :: dunderToDot rest

/-- Python `s.split('.')`. -/
def splitOnDot : List Char → List (List Char)
  | [] => [[]]
  | '.' :: rest => [] :: splitOnDot rest
  | c :: rest =>
    match splitOnDot rest with
    | [] => [[c]]
    | g :: gs => (c :: g) :: gs

/-- JS `s.lower()` on tag names (ASCII case folding). -/
def lowerStr (s : String) : String := ⟨s.data.map Char.toLower⟩

/-- The dotted property path of a prop key:
`key.replace('__', '.').split('.')` (line 370 of `_widget.py`). -/
def propPath (key : String) : List String :=
  (splitOnDot (dunderToDot key.data)).map (fun l => String.mk l)

/-- The fixed rename table applied to the final path segment:
`{'css_class': 'className', 'class': 'className'}`. -/
def renameKey (k : String) : String :=
  if k = "css_class" ∨ k = "class" then "className" else k

/-- One prop assignment: navigate all but the last path segment, rename the
last segment, and assign (`ob[map.get(key, key)] = val`). -/
def assignProp (h : Heap) (node : Nat) (key : String) (v : JsVal) : Heap :=
  let parts := propPath key
  let path := parts.dropLast ++ [renameKey (parts.getLastD "")]
  h.set node
    { h.get node with
      props := (path, v) :: ((h.get node).props.filter (fun pv => pv.1 ≠ path)) }

/-- Apply all props of a virtual node in order (lines 366-374). -/
def applyProps (node : Nat) (props : List (String × JsVal)) (h : Heap) : Heap :=
  props.foldl (fun acc kv => assignProp acc node kv.1 kv.2) h

/-- Node resolution (line 363): reuse the existing node when its tag matches
case-insensitively, else create a fresh node of the virtual type. -/
def resolveNode (t : String) (nodeOpt : Option Nat) (h : Heap) : Nat × Heap :=
  match nodeOpt with
  | none => h.createElement t
  | some n =>
      if lowerStr (h.get n).nodeName ≠ lowerStr t then h.createElement t else (n, h)

/-- The truncation loop (lines 383-384):
`while len(node.children) > len(vnode.children): node.removeChild(last)`. -/
def truncateChildren (node target : Nat) (h : Heap) : Heap :=
  if hc : target < (h.get node).childNodes.length then
    truncateChildren node target
      (h.removeChild node
        ((h.get node).childNodes.getD ((h.get node).childNodes.length - 1) 0))
  else h
termination_by ((h.get node).childNodes.length - target)
decreasing_by
  · have hmem : (h.get node).childNodes.getD ((h.get node).childNodes.length - 1) 0
        ∈ (h.get node).childNodes := by
      rw [List.getD_eq_getElem _ 0 (by omega)]
      exact List.getElem_mem (by omega)
    rw [Heap.childNodes_removeChild_self h node hmem,
      List.length_erase_of_mem hmem]
    omega

/-- Lines 394-398: splice the reconciled child into place — append when
there was no node at this index, replace (insert-before then remove) when a
different node resulted, and do nothing when the node was reused. -/
def spliceChild (h1 : Heap) (parent newSub : Nat) (subnode : Option Nat) : Heap :=
  match subnode with
  | none => h1.appendChild parent newSub
  | some sub =>
      if sub ≠ newSub
      then (h1.insertBefore parent newSub sub).removeChild parent sub
      else h1

mutual

/-- `Widget.__render_resolve(vnode, node)` (lines 341-405): given a virtual
node and the real node currently at that position, update or create a real
node and return it together with the mutated heap. -/
def renderResolve : VNode → Option Nat → Heap → Except String (Nat × Heap)
  | VNode.real id, _, h => Except.ok (id, h)
  | VNode.vtext s, nodeOpt, h =>
      -- a plain string becomes `{type: 'span', props: {}, children: s}`
      let nh := resolveNode "span" nodeOpt h
      let h1 := applyProps nh.1 [] nh.2
      Except.ok (nh.1, h1.setInnerHTML nh.1 s)
  | VNode.vlist _, _, _ =>
      Except.error "TypeError: Widget._render_dom() needs virtual nodes to be dicts"
  | VNode.velem t p c, nodeOpt, h =>
      let nh := resolveNode t nodeOpt h
      let h1 := applyProps nh.1 p nh.2
      resolveChildrenOf nh.1 c h1

/-- Children resolution (lines 376-403) for the already-resolved node. -/
def resolveChildrenOf : Nat → VChildren → Heap → Except String (Nat × Heap)
  | node, VChildren.cnone, h => Except.ok (node, h)
  | node, VChildren.cstr s, h => Except.ok (node, h.setInnerHTML node s)
  | node, VChildren.clist l, h =>
      let h1 := truncateChildren node l.length h
      match resolveKids node 0 l h1 with
      | Except.error e => Except.error e
      | Except.ok h2 => Except.ok (node, h2)

/-- The per-index reconciliation loop (lines 386-398). -/
def resolveKids : Nat → Nat → VNodeList → Heap → Except String Heap
  | _, _, VNodeList.nil, h => Except.ok h
  | parent, i1, VNodeList.cons v rest, h =>
      let subnode := ((h.get parent).childNodes).get? i1
      match renderResolve v subnode h with
      | Except.error e => Except.error e
      | Except.ok (newSub, h1) =>
          resolveKids parent (i1 + 1) rest (spliceChild h1 parent newSub subnode)

end

/-- What `Widget._render_dom()` may return: `None`, a real node, a string,
a list, or a virtual-node dict. -/
inductive RenderOut : Type where
  | rnone
  | rreal (id : Nat)
  | rstr (s : String)
  | rlist (l : VNodeList)
  | rdict (type : String) (props : List (String × JsVal)) (children : VChildren)
deriving DecidableEq, Repr

/-- The final `__render_resolve` call of `Widget.__render` plus the
`assert node is self.outernode` on line 339. -/
def renderApply (v : VNode) (outernode : Nat) (h : Heap) : Except String Heap :=
  match renderResolve v (some outernode) h with
  | Except.error e => Except.error e
  | Except.ok (r, h') =>
      if r = outernode then Except.ok h' else Except.error "AssertionError"

/-- `Widget.__render` (lines 321-339): validate the `_render_dom()` output,
wrap strings/lists, check the root tag, and run the reconciler against the
widget's outer anchor node. -/
def widgetRender (out : RenderOut) (outernode : Nat) (h : Heap) : Except String Heap :=
  match out with
  | RenderOut.rnone => Except.ok h
  | RenderOut.rreal id =>
      if id = outernode then Except.ok h
      else Except.error "TypeError: Widget._render_dom() must return None, str, list or dict."
  | RenderOut.rstr s =>
      renderApply (VNode.velem (h.get outernode).nodeName [] (VChildren.cstr s)) outernode h
  | RenderOut.rlist l =>
      renderApply (VNode.velem (h.get outernode).nodeName [] (VChildren.clist l)) outernode h
  | RenderOut.rdict t p c =>
      if lowerStr t ≠ lowerStr (h.get outernode).nodeName then
        Except.error
          "ValueError: Widget._render_dom() must return root node with same element type as outernode."
      else renderApply (VNode.velem t p c) outernode h

/-- `create_element(type, props, *children)` (lines 21-40): zero child
arguments mean `children = None`; a single string or list argument is used
directly; otherwise the argument sequence itself is the children list. -/
def create_element (type : String) (props : Option (List (String × JsVal)))
    (children : VNodeList) : VNode :=
  let ch :=
    if children.length = 0 then VChildren.cnone
    else
      match children with
      | VNodeList.cons (VNode.vtext s) VNodeList.nil => VChildren.cstr s
      | VNodeList.cons (VNode.vlist l) VNodeList.nil => VChildren.clist l
      | _ => VChildren.clist children
  VNode.velem type (props.getD []) ch

/-! ## Widget hierarchy: `set_parent` -/

/-- A JS number used as an insert position: an integer or `NaN`
(for which both `pos >= 0` and `pos < 0` are false). -/
inductive JsNum : Type where
  | num (i : Int)
  | nan
deriving DecidableEq, Repr

/-- The widget world: each widget id has a `parent` property and a
`children` property.  A children entry is `some id`, or `none` for a JS
`null` entry (which the NaN branch of `set_parent` appends). -/
structure WState : Type where
  parentOf : Nat → Option Nat
  childrenOf : Nat → List (Option Nat)

/-- Python `list.insert(i, x)` (also for negative and clamped indices). -/
def pyInsert (l : List (Option Nat)) (i : Int) (x : Option Nat) : List (Option Nat) :=
  let j : Nat := if i < 0 then (max 0 ((l.length : Int) + i)).toNat else min i.toNat l.length
  l.take j ++ [x] ++ l.drop j

/-- `while self in children: children.remove(self)`. -/
def removeSelf (w : Nat) (l : List (Option Nat)) : List (Option Nat) :=
  l.filter (fun c => c ≠ some w)

/-- `Widget.set_parent(parent, pos)` (lines 618-659), acting on the widget
world state for widget `w`. -/
def setParent (s : WState) (w : Nat) (newP : Option Nat) (pos : Option JsNum) : WState :=
  let oldP := s.parentOf w
  -- Early exit
  if newP = oldP ∧ pos = none then s
  else
    -- Apply parent
    let s1 : WState := { s with parentOf := fun x => if x = w then newP else s.parentOf x }
    -- Remove ourselves
    let removedList :=
      match oldP with
      | some op => removeSelf w (s1.childrenOf op)
      | none => []
    let s2 : WState :=
      match oldP with
      | some op =>
          if some op ≠ newP then
            { s1 with childrenOf := fun x => if x = op then removedList else s1.childrenOf x }
          else s1
      | none => s1
    -- Insert ourselves
    match newP with
    | none => s2
    | some np =>
        let children0 :=
          if oldP ≠ some np then removeSelf w (s2.childrenOf np)
          else removeSelf w removedList
        let children1 :=
          match pos with
          | none => children0 ++ [some w]
          | some (JsNum.num p) =>
              if p ≥ 0 then pyInsert children0 p (some w)
              else (pyInsert (children0 ++ [none]) p (some w)).dropLast
          | some JsNum.nan => children0 ++ [none]
        { s2 with childrenOf := fun x => if x = np then children1 else s2.childrenOf x }

/-! ## Input state machine (`_init_events`, lines 702-774) -/

/-- An emitted Flexx event kind. -/
inductive Emit : Type where
  | edown
  | emove
  | eup
deriving DecidableEq, Repr

/-- Machine state: `self._capture_flag` (0 idle, 1 down without capture,
2 captured, -1 capture ending) and whether the document-wide
move/release listeners are installed. -/
structure MState : Type where
  flag : Int
  doc : Bool
deriving DecidableEq, Repr

/-- `self._capture_flag = 0`, no document listeners installed. -/
def initState : MState := { flag := 0, doc := false }

/-- A raw pointer interaction, as delivered by the browser. `moveInside`
and `upInside` happen over the widget (and also reach the document-wide
capturing listeners when those are installed); `moveOutside` and
`upOutside` only reach the document-wide listeners. -/
inductive RawIn : Type where
  | down
  | moveInside
  | moveOutside
  | upInside
  | upOutside
  | losecap
deriving DecidableEq, Repr

/-- `mdown` (lines 717-728). -/
def mdown (cm : Int) (s : MState) : MState :=
  if cm = 0 then { s with flag := 1 }
  else { flag := 2, doc := true }

/-- `mmove_inside` (lines 730-737). -/
def mmoveInside (cm : Int) (s : MState) : MState × List Emit :=
  if s.flag = -1 then ({ s with flag := 0 }, [])
  else if s.flag = 1 then (s, [Emit.emove])
  else if s.flag = 0 ∧ cm > 1 then (s, [Emit.emove])
  else (s, [])

/-- `mup_inside` (lines 739-742). -/
def mupInside (s : MState) : MState × List Emit :=
  (({ s with flag := 0 } : MState), if s.flag = 1 then [Emit.eup] else [])

/-- `mmove_outside` (lines 744-748): the document-wide move listener. -/
def mmoveOutside (s : MState) : MState × List Emit :=
  if s.flag = 2 then (s, [Emit.emove]) else (s, [])

/-- `stopcapture` (lines 757-762). -/
def stopcapture (s : MState) : MState :=
  if s.flag = 2 then { flag := -1, doc := false } else s

/-- `mup_outside` (lines 750-755): the document-wide release listener. -/
def mupOutside (s : MState) : MState × List Emit :=
  if s.flag = 2 then (stopcapture s, [Emit.eup]) else (s, [])

/-- One raw interaction: run every listener that the browser would invoke,
document-wide capturing listeners (when installed) before the listeners on
the widget's inner node. -/
def step (cm : Int) (s : MState) : RawIn → MState × List Emit
  | RawIn.down => (mdown cm s, [Emit.edown])
  | RawIn.moveOutside => if s.doc then mmoveOutside s else (s, [])
  | RawIn.upOutside => if s.doc then mupOutside s else (s, [])
  | RawIn.moveInside =>
      let r1 := if s.doc then mmoveOutside s else (s, [])
      let r2 := mmoveInside cm r1.1
      (r2.1, r1.2 ++ r2.2)
  | RawIn.upInside =>
      let r1 := if s.doc then mupOutside s else (s, [])
      let r2 := mupInside r1.1
      (r2.1, r1.2 ++ r2.2)
  | RawIn.losecap => (stopcapture s, [])

/-- Run a sequence of raw interactions, collecting the emitted events. -/
def run (cm : Int) : List RawIn → MState → MState × List Emit
  | [], s => (s, [])
  | e :: rest, s =>
      let r1 := step cm s e
      let r2 := run cm rest r1.1
      (r2.1, r1.2 ++ r2.2)

/-! ## Normalized mouse / wheel event records -/

/-- The raw browser mouse event fields the widget reads. -/
structure RawMouse : Type where
  clientX : Rat
  clientY : Rat
  pageX : Rat
  pageY : Rat
  altKey : Bool
  shiftKey : Bool
  ctrlKey : Bool
  metaKey : Bool
  buttons : Nat
  button : Nat
deriving DecidableEq, Repr

/-- A raw wheel event: a mouse event plus the scroll deltas. -/
structure RawWheel extends RawMouse where
  deltaX : Rat
  deltaY : Rat
  deltaMode : Nat
deriving DecidableEq, Repr

/-- `self.node.getBoundingClientRect()` of the widget's inner node. -/
structure Rect : Type where
  left : Rat
  top : Rat
deriving DecidableEq, Repr

/-- The normalized mouse event record; `button` is `none` when the JS
lookup yields `undefined`, and `hscroll`/`vscroll` are only present on
wheel events (NaN from an out-of-range `deltaMode` is modelled as `none`). -/
structure MouseEv : Type where
  pos : Rat × Rat
  page_pos : Rat × Rat
  button : Option Nat
  buttons : List Nat
  modifiers : List String
  hscroll : Option Rat
  vscroll : Option Rat
deriving DecidableEq, Repr

/-- `e.buttons.toString(2)` (binary digits, most significant first). -/
def natToBin (n : Nat) : List Char := Nat.toDigits 2 n

/-- `Widget._create_mouse_event` (lines 830-852). -/
def createMouseEvent (rect : Rect) (e : RawMouse) : MouseEv :=
  let modifiers := (["Alt", "Shift", "Ctrl", "Meta"]).filter fun nm =>
    if nm = "Alt" then e.altKey
    else if nm = "Shift" then e.shiftKey
    else if nm = "Ctrl" then e.ctrlKey
    else e.metaKey
  let pos := (e.clientX - rect.left, e.clientY - rect.top)
  -- buttons mask: reversed binary string, or the fallback list of one
  -- string when `e.buttons` is falsy
  let maskBit : Nat → Bool :=
    if e.buttons ≠ 0 then fun i => (natToBin e.buttons).reverse.getD i ' ' = '1'
    else fun i => i = 0 ∧ String.mk (natToBin e.button) = "1"
  let buttons := (List.range 5).filterMap fun i =>
    if maskBit i then some (i + 1) else none
  let button := ([(0, 1), (1, 3), (2, 2), (3, 4), (4, 5)] : List (Nat × Nat)).lookup e.button
  { pos := pos, page_pos := (e.pageX, e.pageY), button := button,
    buttons := buttons, modifiers := modifiers, hscroll := none, vscroll := none }

/-- The per-deltaMode multiplier table `[1, 16, 600]`. -/
def wheelScale (m : Nat) : Option Rat := ([1, 16, 600] : List Rat).get? m

/-- `Widget.mouse_wheel` (lines 811-828): normalize, force `button = 0`,
and add the scaled scroll amounts. -/
def mouse_wheel (rect : Rect) (e : RawWheel) : MouseEv :=
  let ev := createMouseEvent rect e.toRawMouse
  { ev with
    button := some 0,
    hscroll := (wheelScale e.deltaMode).map (fun m => e.deltaX * m),
    vscroll := (wheelScale e.deltaMode).map (fun m => e.deltaY * m) }

/-- `Widget.mouse_move` (lines 801-809): normalize and force `button = 0`. -/
def mouse_move (rect : Rect) (e : RawMouse) : MouseEv :=
  { createMouseEvent rect e with button := some 0 }

/-! ## Example inputs used by witnesses and counterexamples -/

/-- A one-node heap holding a `div` element. -/
def exDivHeap : Heap :=
  ⟨[{ nodeName := "div", props := [], innerHTML := "", childNodes := [] }]⟩

/-- A one-node heap holding a `span` element. -/
def exSpanHeap : Heap :=
  ⟨[{ nodeName := "span", props := [], innerHTML := "", childNodes := [] }]⟩

/-- A heap with a `div` whose children are a `b` node and a `p` node. -/
def exParentHeap : Heap :=
  ⟨[{ nodeName := "div", props := [], innerHTML := "", childNodes := [1, 2] },
    { nodeName := "b", props := [], innerHTML := "", childNodes := [] },
    { nodeName := "p", props := [], innerHTML := "", childNodes := [] }]⟩

/-- A widget world: widget 1 is the only child of widget 5. -/
def exWState : WState :=
  { parentOf := fun x => if x = 1 then some 5 else none,
    childrenOf := fun x => if x = 5 then [some 1] else [] }

/-- A widget world with no parent/child links at all. -/
def exEmptyWState : WState :=
  { parentOf := fun _ => none, childrenOf := fun _ => [] }

/-- A raw wheel event with `deltaMode = 1` and `deltaY = 2`. -/
def exWheel : RawWheel :=
  { clientX := 0, clientY := 0, pageX := 0, pageY := 0,
    altKey := false, shiftKey := false, ctrlKey := false, metaKey := false,
    buttons := 0, button := 0, deltaX := 3, deltaY := 2, deltaMode := 1 }

/-- A bounding rectangle at the page origin. -/
def exRect : Rect := { left := 0, top := 0 }

/-! ## Heap-operation preservation lemmas -/

theorem length_assignProp (h : Heap) (node : Nat) (key : String) (v : JsVal) :
    (assignProp h node key v).nodes.length = h.nodes.length := by
  simp [assignProp, Heap.length_set]

theorem get_assignProp_proj (h : Heap) (node : Nat) (key : String) (v : JsVal) (i : Nat) :
    ((assignProp h node key v).get i).nodeName = (h.get i).nodeName
    ∧ ((assignProp h node key v).get i).childNodes = (h.get i).childNodes
    ∧ ((assignProp h node key v).get i).innerHTML = (h.get i).innerHTML := by
  unfold assignProp
  rw [Heap.get_set]
  split
  · rename_i hcond
    rw [hcond.1]
    exact ⟨rfl, rfl, rfl⟩
  · exact ⟨rfl, rfl, rfl⟩

theorem length_applyProps (node : Nat) (props : List (String × JsVal)) (h : Heap) :
    (applyProps node props h).nodes.length = h.nodes.length := by
  induction props generalizing h with
  | nil => rfl
  | cons kv rest ih =>
      show (applyProps node rest (assignProp h node kv.1 kv.2)).nodes.length = _
      rw [ih, length_assignProp]

theorem get_applyProps_proj (node : Nat) (props : List (String × JsVal)) (h : Heap) (i : Nat) :
    ((applyProps node props h).get i).nodeName = (h.get i).nodeName
    ∧ ((applyProps node props h).get i).childNodes = (h.get i).childNodes
    ∧ ((applyProps node props h).get i).innerHTML = (h.get i).innerHTML := by
  induction props generalizing h with
  | nil => exact ⟨rfl, rfl, rfl⟩
  | cons kv rest ih =>
      have h1 := get_assignProp_proj h node kv.1 kv.2 i
      have h2 := ih (assignProp h node kv.1 kv.2)
      refine ⟨?_, ?_, ?_⟩
      · exact h2.1.trans h1.1
      · exact h2.2.1.trans h1.2.1
      · exact h2.2.2.trans h1.2.2

theorem length_removeChild (h : Heap) (p c : Nat) :
    (h.removeChild p c).nodes.length = h.nodes.length := by
  simp [Heap.removeChild, Heap.length_set]

theorem nodeName_removeChild (h : Heap) (p c : Nat) (i : Nat) :
    ((h.removeChild p c).get i).nodeName = (h.get i).nodeName := by
  unfold Heap.removeChild
  rw [Heap.get_set]
  split
  · rename_i hc
    rw [hc.1]
  · rfl

theorem get_removeChild_ne (h : Heap) (p c : Nat) (i : Nat) (hip : i ≠ p) :
    ((h.removeChild p c).get i) = h.get i := by
  unfold Heap.removeChild
  rw [Heap.get_set, if_neg (by tauto)]

theorem nodeName_detach (h : Heap) (c : Nat) (i : Nat) :
    ((h.detach c).get i).nodeName = (h.get i).nodeName := by
  rw [Heap.get_detach]

theorem length_appendChild (h : Heap) (p c : Nat) :
    (h.appendChild p c).nodes.length = h.nodes.length := by
  simp [Heap.appendChild, Heap.length_set, Heap.length_detach]

theorem nodeName_appendChild (h : Heap) (p c : Nat) (i : Nat) :
    ((h.appendChild p c).get i).nodeName = (h.get i).nodeName := by
  unfold Heap.appendChild
  rw [Heap.get_set]
  split
  · rename_i hc
    rw [hc.1, Heap.get_detach]
  · rw [Heap.get_detach]

theorem length_insertBefore (h : Heap) (p c ref : Nat) :
    (h.insertBefore p c ref).nodes.length = h.nodes.length := by
  simp [Heap.insertBefore, Heap.length_set, Heap.length_detach]

theorem nodeName_insertBefore (h : Heap) (p c ref : Nat) (i : Nat) :
    ((h.insertBefore p c ref).get i).nodeName = (h.get i).nodeName := by
  unfold Heap.insertBefore
  rw [Heap.get_set]
  split
  · rename_i hc
    rw [hc.1, Heap.get_detach]
  · rw [Heap.get_detach]

theorem length_setInnerHTML (h : Heap) (n : Nat) (s : String) :
    (h.setInnerHTML n s).nodes.length = h.nodes.length := by
  simp [Heap.setInnerHTML, Heap.length_set]

theorem nodeName_setInnerHTML (h : Heap) (n : Nat) (s : String) (i : Nat) :
    ((h.setInnerHTML n s).get i).nodeName = (h.get i).nodeName := by
  unfold Heap.setInnerHTML
  rw [Heap.get_set]
  split
  · rename_i hc
    rw [hc.1]
  · rfl

/-- Erasing the last element of a duplicate-free list drops its tail. -/
theorem erase_last_of_nodup (l : List Nat) (hnd : l.Nodup) (hne : 0 < l.length) :
    l.erase (l.getD (l.length - 1) 0) = l.dropLast := by
  induction l with
  | nil => simp at hne
  | cons a t ih =>
      cases t with
      | nil => simp [List.getD]
      | cons b t2 =>
          have hget : (a :: b :: t2).getD ((a :: b :: t2).length - 1) 0
              = (b :: t2).getD ((b :: t2).length - 1) 0 := by
            show (a :: b :: t2).getD (t2.length + 1) 0 = (b :: t2).getD t2.length 0
            rw [List.getD_cons_succ]
          have hmem : (b :: t2).getD ((b :: t2).length - 1) 0 ∈ b :: t2 := by
            rw [List.getD_eq_getElem _ _ (by simp)]
            exact List.getElem_mem _
          have hane : a ≠ (b :: t2).getD ((b :: t2).length - 1) 0 := by
            intro heq
            rw [heq] at hnd
            exact (List.nodup_cons.mp hnd).1 hmem
          rw [hget, List.erase_cons_tail
              (by simp only [beq_iff_eq]; exact fun h => hane h),
            ih (List.nodup_cons.mp hnd).2 (by simp)]
          rfl

theorem length_truncateChildren (node target : Nat) (h : Heap) :
    (truncateChildren node target h).nodes.length = h.nodes.length := by
  refine truncateChildren.induct node target
    (fun hh => (truncateChildren node target hh).nodes.length = hh.nodes.length) ?_ ?_ h
  · intro x hc ih
    rw [truncateChildren, dif_pos hc, ih, length_removeChild]
  · intro x hc
    rw [truncateChildren, dif_neg hc]

theorem nodeName_truncateChildren (node target : Nat) (h : Heap) (i : Nat) :
    ((truncateChildren node target h).get i).nodeName = (h.get i).nodeName := by
  refine truncateChildren.induct node target
    (fun hh => ((truncateChildren node target hh).get i).nodeName = (hh.get i).nodeName)
    ?_ ?_ h
  · intro x hc ih
    rw [truncateChildren, dif_pos hc, ih, nodeName_removeChild]
  · intro x hc
    rw [truncateChildren, dif_neg hc]

theorem get_truncateChildren_ne (node target : Nat) (h : Heap) (i : Nat) (hi : i ≠ node) :
    (truncateChildren node target h).get i = h.get i := by
  refine truncateChildren.induct node target
    (fun hh => (truncateChildren node target hh).get i = hh.get i) ?_ ?_ h
  · intro x hc ih
    rw [truncateChildren, dif_pos hc, ih, get_removeChild_ne _ _ _ _ hi]
  · intro x hc
    rw [truncateChildren, dif_neg hc]

/-- The truncation loop keeps exactly the first `target` children,
removing from the tail. -/
theorem childNodes_truncateChildren (node target : Nat) (h : Heap)
    (hnd : ((h.get node).childNodes).Nodup)
    (hle : target ≤ (h.get node).childNodes.length) :
    ((truncateChildren node target h).get node).childNodes
      = (h.get node).childNodes.take target := by
  refine truncateChildren.induct node target
    (fun hh => ((hh.get node).childNodes).Nodup →
      target ≤ (hh.get node).childNodes.length →
      ((truncateChildren node target hh).get node).childNodes
        = (hh.get node).childNodes.take target) ?_ ?_ h hnd hle
  · intro x hc ih hnd1 _
    have hmem : (x.get node).childNodes.getD ((x.get node).childNodes.length - 1) 0
        ∈ (x.get node).childNodes := by
      rw [List.getD_eq_getElem _ _ (by omega)]
      exact List.getElem_mem _
    have hch : ((x.removeChild node ((x.get node).childNodes.getD
        ((x.get node).childNodes.length - 1) 0)).get node).childNodes
        = (x.get node).childNodes.dropLast := by
      rw [Heap.childNodes_removeChild_self x node hmem,
        erase_last_of_nodup _ hnd1 (by omega)]
    rw [truncateChildren, dif_pos hc, ih]
    · rw [hch, List.dropLast_eq_take, List.take_take,
        Nat.min_eq_left (by omega)]
    · rw [hch]
      exact hnd1.sublist (List.dropLast_sublist _)
    · rw [hch]
      simp [List.length_dropLast]
      omega
  · intro x hc hnd1 hle1
    rw [truncateChildren, dif_neg hc,
      List.take_of_length_le (by omega)]

/-! ## Tag-name preservation across reconciliation -/

/-- `h'` extends `h` without renaming any existing node. -/
def namesAgree (h h' : Heap) : Prop :=
  h.nodes.length ≤ h'.nodes.length
  ∧ ∀ i, i < h.nodes.length → (h'.get i).nodeName = (h.get i).nodeName

theorem namesAgree_refl (h : Heap) : namesAgree h h :=
  ⟨Nat.le_refl _, fun _ _ => rfl⟩

theorem namesAgree_trans {a b c : Heap} (h1 : namesAgree a b) (h2 : namesAgree b c) :
    namesAgree a c :=
  ⟨Nat.le_trans h1.1 h2.1,
   fun i hi => (h2.2 i (Nat.lt_of_lt_of_le hi h1.1)).trans (h1.2 i hi)⟩

theorem namesAgree_of_eq {h h' : Heap} (hlen : h'.nodes.length = h.nodes.length)
    (hnm : ∀ i, (h'.get i).nodeName = (h.get i).nodeName) : namesAgree h h' :=
  ⟨Nat.le_of_eq hlen.symm, fun i _ => hnm i⟩

theorem namesAgree_createElement (h : Heap) (t : String) :
    namesAgree h (h.createElement t).2 :=
  ⟨by rw [Heap.length_createElement]; omega,
   fun i hi => by rw [Heap.get_createElement, if_neg (by omega)]⟩

theorem namesAgree_resolveNode (t : String) (o : Option Nat) (h : Heap) :
    namesAgree h (resolveNode t o h).2 := by
  cases o with
  | none =>
      simp only [resolveNode]
      exact namesAgree_createElement h t
  | some n =>
      simp only [resolveNode]
      by_cases hcond : lowerStr (h.get n).nodeName ≠ lowerStr t
      · rw [if_pos hcond]
        exact namesAgree_createElement h t
      · rw [if_neg hcond]
        exact namesAgree_refl h

theorem namesAgree_applyProps (node : Nat) (props : List (String × JsVal)) (h : Heap) :
    namesAgree h (applyProps node props h) :=
  namesAgree_of_eq (length_applyProps node props h)
    (fun i => (get_applyProps_proj node props h i).1)

theorem namesAgree_setInnerHTML (h : Heap) (n : Nat) (s : String) :
    namesAgree h (h.setInnerHTML n s) :=
  namesAgree_of_eq (length_setInnerHTML h n s) (fun i => nodeName_setInnerHTML h n s i)

theorem namesAgree_truncateChildren (node target : Nat) (h : Heap) :
    namesAgree h (truncateChildren node target h) :=
  namesAgree_of_eq (length_truncateChildren node target h)
    (fun i => nodeName_truncateChildren node target h i)

theorem namesAgree_spliceChild (h : Heap) (parent newSub : Nat) (subnode : Option Nat) :
    namesAgree h (spliceChild h parent newSub subnode) := by
  cases subnode with
  | none =>
      simp only [spliceChild]
      exact namesAgree_of_eq (length_appendChild h parent newSub)
        (fun i => nodeName_appendChild h parent newSub i)
  | some sub =>
      simp only [spliceChild]
      by_cases hs : sub ≠ newSub
      · rw [if_pos hs]
        refine namesAgree_of_eq ?_ ?_
        · rw [length_removeChild, length_insertBefore]
        · intro i
          rw [nodeName_removeChild, nodeName_insertBefore]
      · rw [if_neg hs]
        exact namesAgree_refl h

/-- Bounded form of tag-name preservation for the three mutually recursive
reconciliation functions. -/
theorem resolve_namesAgree_aux : ∀ N : Nat,
    (∀ v : VNode, sizeOf v ≤ N → ∀ o h r h',
      renderResolve v o h = Except.ok (r, h') → namesAgree h h')
    ∧ (∀ c : VChildren, sizeOf c ≤ N → ∀ node h r h',
      resolveChildrenOf node c h = Except.ok (r, h') → namesAgree h h')
    ∧ (∀ l : VNodeList, sizeOf l ≤ N → ∀ p i1 h h',
      resolveKids p i1 l h = Except.ok h' → namesAgree h h') := by
  intro N
  induction N with
  | zero =>
      refine ⟨?_, ?_, ?_⟩
      · intro v hv
        exfalso
        cases v <;> simp at hv
      · intro c hc
        exfalso
        cases c <;> simp at hc
      · intro l hl
        exfalso
        cases l <;> simp at hl
  | succ N ih =>
      obtain ⟨ihv, ihc, ihl⟩ := ih
      refine ⟨?_, ?_, ?_⟩
      · intro v hv o h r h' heq
        cases v with
        | real id =>
            simp only [renderResolve, Except.ok.injEq, Prod.mk.injEq] at heq
            rw [← heq.2]
            exact namesAgree_refl h
        | vtext s =>
            simp only [renderResolve, Except.ok.injEq, Prod.mk.injEq] at heq
            rw [← heq.2]
            exact namesAgree_trans (namesAgree_resolveNode "span" o h)
              (namesAgree_setInnerHTML _ _ _)
        | vlist l =>
            simp only [renderResolve] at heq
            exact Except.noConfusion heq
        | velem t p c =>
            simp only [renderResolve] at heq
            have hsz : sizeOf c ≤ N := by
              simp at hv
              omega
            exact namesAgree_trans
              (namesAgree_trans (namesAgree_resolveNode t o h)
                (namesAgree_applyProps _ p _))
              (ihc c hsz _ _ r h' heq)
      · intro c hc node h r h' heq
        cases c with
        | cnone =>
            simp only [resolveChildrenOf, Except.ok.injEq, Prod.mk.injEq] at heq
            rw [← heq.2]
            exact namesAgree_refl h
        | cstr s =>
            simp only [resolveChildrenOf, Except.ok.injEq, Prod.mk.injEq] at heq
            rw [← heq.2]
            exact namesAgree_setInnerHTML h node s
        | clist l =>
            simp only [resolveChildrenOf] at heq
            have hsz : sizeOf l ≤ N := by
              simp at hc
              omega
            cases hres : resolveKids node 0 l (truncateChildren node l.length h) with
            | error e =>
                rw [hres] at heq
                exact Except.noConfusion heq
            | ok h2 =>
                rw [hres] at heq
                simp only [Except.ok.injEq, Prod.mk.injEq] at heq
                rw [← heq.2]
                exact namesAgree_trans (namesAgree_truncateChildren node l.length h)
                  (ihl l hsz node 0 _ h2 hres)
      · intro l hl p i1 h h' heq
        cases l with
        | nil =>
            simp only [resolveKids, Except.ok.injEq] at heq
            rw [← heq]
            exact namesAgree_refl h
        | cons v rest =>
            simp only [resolveKids] at heq
            have hsz : sizeOf v ≤ N ∧ sizeOf rest ≤ N := by
              simp at hl
              omega
            cases hres : renderResolve v ((h.get p).childNodes.get? i1) h with
            | error e =>
                rw [hres] at heq
                exact Except.noConfusion heq
            | ok pr =>
                rw [hres] at heq
                obtain ⟨newSub, h1⟩ := pr
                exact namesAgree_trans
                  (namesAgree_trans (ihv v hsz.1 _ _ _ _ hres)
                    (namesAgree_spliceChild h1 p newSub _))
                  (ihl rest hsz.2 p (i1 + 1) _ h' heq)

/-- Tag-name preservation for `__render_resolve`: a successful resolve never
renames an existing real node. -/
theorem renderResolve_namesAgree (v : VNode) (o : Option Nat) (h : Heap) (r : Nat)
    (h' : Heap) (heq : renderResolve v o h = Except.ok (r, h')) : namesAgree h h' :=
  (resolve_namesAgree_aux (sizeOf v)).1 v (Nat.le_refl _) o h r h' heq

theorem childNodes_createElement (h : Heap) (t : String) (i : Nat) :
    ((h.createElement t).2.get i).childNodes = (h.get i).childNodes := by
  rw [Heap.get_createElement]
  split
  · rename_i hi
    rw [hi, Heap.get_of_le h _ (Nat.le_refl _)]
    rfl
  · rfl

theorem childNodes_resolveNode (t : String) (o : Option Nat) (h : Heap) (i : Nat) :
    (((resolveNode t o h).2).get i).childNodes = (h.get i).childNodes := by
  cases o with
  | none =>
      simp only [resolveNode]
      exact childNodes_createElement h t i
  | some n =>
      simp only [resolveNode]
      by_cases hcond : lowerStr (h.get n).nodeName ≠ lowerStr t
      · rw [if_pos hcond]
        exact childNodes_createElement h t i
      · rw [if_neg hcond]

/-! ## The claims -/

/-- Claim C1, corrected.  The original claim says that with
`capture_mouse == 1` a press-down followed by a document-wide (outside)
move emits no `mouse_move`.  In the code, `mdown` sets `_capture_flag = 2`
and installs the document-wide listeners for every `capture_mouse > 0`
(lines 717-728), so the outside move is emitted for `capture_mouse == 1`
just as for `capture_mouse == 2` — exactly as the `capture_mouse`
property's own doc string states.  Amended claim: for every widget with
`capture_mouse == 1` or `capture_mouse == 2`, a press-down on its inner
anchor followed by a pointer move delivered via the document-wide
(outside) path emits a `mouse_move` event. -/
theorem claimC1_main (cm : Int) (hcm : cm = 1 ∨ cm = 2) :
    (run cm [RawIn.down, RawIn.moveOutside] initState).2 = [Emit.edown, Emit.emove] := by
  rcases hcm with hcm | hcm <;> subst hcm <;> decide

/-- Witness for C1 at `capture_mouse = 1`. -/
theorem claimC1_witness :
    ((1 : Int) = 1 ∨ (1 : Int) = 2)
    ∧ (run 1 [RawIn.down, RawIn.moveOutside] initState).2 = [Emit.edown, Emit.emove] :=
  ⟨Or.inl rfl, claimC1_main 1 (Or.inl rfl)⟩

/-- Counterexample to C1 as stated: with `capture_mouse = 1`, the
press-down-then-outside-move sequence does emit a `mouse_move`. -/
theorem claimC1_counterexample :
    Emit.emove ∈ (run 1 [RawIn.down, RawIn.moveOutside] initState).2 := by
  decide

/-- Claim C3, code bug.  `set_parent(p, pos)` with a NaN `pos` falls into
the final `else` branch (line 658) which runs `children.append(None)`:
it appends JS `null` to the new parent's children instead of appending the
widget itself (as `pos=None` does, line 650).  Evaluated at the failing
input: widget 1, new parent 2 with empty children — the children become
`[null]`, the widget is absent, yet its `parent` property is 2. -/
theorem claimC3_main :
    (setParent exEmptyWState 1 (some 2) (some JsNum.nan)).childrenOf 2 = [none]
    ∧ some 1 ∉ (setParent exEmptyWState 1 (some 2) (some JsNum.nan)).childrenOf 2
    ∧ (setParent exEmptyWState 1 (some 2) (some JsNum.nan)).parentOf 1 = some 2
    ∧ (setParent exEmptyWState 1 (some 2) none).childrenOf 2 = [some 1] := by
  decide

/-- Claim C8, confirmed: a wheel event scales `deltaX`/`deltaY` by the
per-`deltaMode` table `[1, 16, 600]` into `hscroll`/`vscroll` and forces
`button = 0` (lines 811-828). -/
theorem claimC8_main (rect : Rect) (e : RawWheel) (hm : e.deltaMode < 3) :
    (mouse_wheel rect e).hscroll
      = some (e.deltaX * (if e.deltaMode = 0 then 1 else if e.deltaMode = 1 then 16 else 600))
    ∧ (mouse_wheel rect e).vscroll
      = some (e.deltaY * (if e.deltaMode = 0 then 1 else if e.deltaMode = 1 then 16 else 600))
    ∧ (mouse_wheel rect e).button = some 0 := by
  obtain ⟨rm, dx, dy, dm⟩ := e
  simp only at hm
  interval_cases dm <;>
    simp [mouse_wheel, wheelScale, createMouseEvent]

/-- Witness for C8: `deltaMode = 1` with `deltaY = 2` yields
`vscroll = 32`. -/
theorem claimC8_witness :
    exWheel.deltaMode < 3
    ∧ (mouse_wheel exRect exWheel).vscroll = some 32
    ∧ (mouse_wheel exRect exWheel).button = some 0 := by
  have h := claimC8_main exRect exWheel (by decide)
  refine ⟨by decide, ?_, h.2.2⟩
  rw [h.2.1]
  norm_num [exWheel]

/-- Claim C10, confirmed: the prop key is converted by replacing every
occurrence of `'__'` with `'.'` before splitting into path segments
(line 370), so keys with the same converted form assign the same nested
target; in particular `'style__color'` resolves to the path
`["style", "color"]`, the same as `'style.color'`. -/
theorem claimC10_main (k1 k2 : String)
    (hk : dunderToDot k1.data = dunderToDot k2.data) :
    (∀ (h : Heap) (node : Nat) (v : JsVal),
      assignProp h node k1 v = assignProp h node k2 v)
    ∧ propPath "style__color" = ["style", "color"]
    ∧ propPath "style__color" = propPath "style.color" := by
  refine ⟨?_, by decide, by decide⟩
  intro h node v
  unfold assignProp propPath
  rw [hk]

/-- Witness for C10 at the keys `'style__color'` and `'style.color'`. -/
theorem claimC10_witness :
    assignProp exDivHeap 0 "style__color" (JsVal.vstr "red")
      = assignProp exDivHeap 0 "style.color" (JsVal.vstr "red")
    ∧ propPath "style__color" = ["style", "color"] :=
  ⟨(claimC10_main "style__color" "style.color" (by decide)).1
      exDivHeap 0 (JsVal.vstr "red"),
   (claimC10_main "style__color" "style.color" (by decide)).2.1⟩

/-- Claim C9, confirmed: `create_element(type, props)` with zero child
arguments produces a virtual node whose `children` field is `None`
(do-not-touch), not an empty list; consequently reconciling its result
against any real node leaves that node's child list unchanged. -/
theorem claimC9_main (t : String) (props : Option (List (String × JsVal))) :
    create_element t props VNodeList.nil = VNode.velem t (props.getD []) VChildren.cnone
    ∧ ∀ (n : Nat) (h : Heap),
        (renderResolve (create_element t props VNodeList.nil) (some n) h).map
            (fun pr => (pr.2.get n).childNodes)
          = Except.ok ((h.get n).childNodes) := by
  refine ⟨rfl, ?_⟩
  intro n h
  show (renderResolve (VNode.velem t (props.getD []) VChildren.cnone) (some n) h).map
      (fun pr => (pr.2.get n).childNodes) = Except.ok ((h.get n).childNodes)
  simp only [renderResolve, resolveChildrenOf, Except.map]
  rw [(get_applyProps_proj _ _ _ n).2.1, childNodes_resolveNode]

/-- Claim C2, corrected.  A string `vnode` is first wrapped as
`{type: 'span', props: {}, children: s}` (line 350), so node resolution
(line 363) only reuses the existing node when its tag is `span`
(case-insensitively): then its inner markup is set to the string and
nothing else about it changes.  For an existing node of any other tag a
fresh `span` carrying the string is created and the existing node is left
entirely unmodified — its content is NOT set.  Amended claim: reconciling
a string `s` against an existing real node `n` sets `n`'s inner markup to
`s` and changes no other attribute or property of `n` exactly when `n`'s
tag is `span` case-insensitively; otherwise `n` is untouched and a new
`span` node with content `s` is produced instead. -/
theorem claimC2_main (s : String) (n : Nat) (h : Heap) (hn : n < h.nodes.length) :
    (lowerStr (h.get n).nodeName = "span" →
      renderResolve (VNode.vtext s) (some n) h
        = Except.ok (n, h.set n { h.get n with innerHTML := s, childNodes := [] }))
    ∧ (lowerStr (h.get n).nodeName ≠ "span" →
      renderResolve (VNode.vtext s) (some n) h
        = Except.ok (h.nodes.length,
            (h.createElement "span").2.setInnerHTML h.nodes.length s)
      ∧ ((h.createElement "span").2.setInnerHTML h.nodes.length s).get n = h.get n
      ∧ (((h.createElement "span").2.setInnerHTML h.nodes.length s).get
            h.nodes.length).nodeName = "span"
      ∧ (((h.createElement "span").2.setInnerHTML h.nodes.length s).get
            h.nodes.length).innerHTML = s
      ∧ n ≠ h.nodes.length) := by
  have hspan : lowerStr "span" = "span" := by decide
  constructor
  · intro htag
    have hcond : ¬(lowerStr (h.get n).nodeName ≠ lowerStr "span") := by
      rw [htag, hspan]
      simp
    simp only [renderResolve, resolveNode, if_neg hcond]
    show Except.ok (n, (applyProps n [] h).setInnerHTML n s) = _
    show Except.ok (n, h.setInnerHTML n s) = _
    unfold Heap.setInnerHTML
    rfl
  · intro htag
    have hcond : lowerStr (h.get n).nodeName ≠ lowerStr "span" := by
      rw [hspan]
      exact htag
    refine ⟨?_, ?_, ?_, ?_, by omega⟩
    · simp only [renderResolve, resolveNode, if_pos hcond]
      rfl
    · unfold Heap.setInnerHTML
      rw [Heap.get_set, if_neg (by omega), Heap.get_createElement, if_neg (by omega)]
    · unfold Heap.setInnerHTML
      rw [Heap.get_set, if_pos ⟨rfl, by rw [Heap.length_createElement]; omega⟩,
        Heap.get_createElement, if_pos rfl]
    · unfold Heap.setInnerHTML
      rw [Heap.get_set, if_pos ⟨rfl, by rw [Heap.length_createElement]; omega⟩]

/-- Witness for C2: against a real `span` node, the string is written as
its inner markup in place. -/
theorem claimC2_witness :
    0 < exSpanHeap.nodes.length
    ∧ lowerStr (exSpanHeap.get 0).nodeName = "span"
    ∧ renderResolve (VNode.vtext "hi") (some 0) exSpanHeap
        = Except.ok (0, exSpanHeap.set 0
            { exSpanHeap.get 0 with innerHTML := "hi", childNodes := [] }) := by
  have h := claimC2_main "hi" 0 exSpanHeap (by decide)
  exact ⟨by decide, by decide, h.1 (by decide)⟩

/-- Counterexample to C2 as stated: reconciling `"hello"` against an
existing `div` node leaves the `div`'s inner markup empty (not `"hello"`)
and returns a freshly created node (id 1) instead. -/
theorem claimC2_counterexample :
    (renderResolve (VNode.vtext "hello") (some 0) exDivHeap).map
        (fun pr => ((pr.2.get 0).innerHTML, pr.1))
      = Except.ok ("", 1)
    ∧ ("" : String) ≠ "hello" := by
  constructor
  · rfl
  · decide

/-- Claim C5, confirmed: reconciling an ordered child sequence of length N
against an existing (tag-matching) node with M > N children first runs the
truncation loop — leaving exactly the first N children, removed from the
tail — and only then the positional per-index reconciliation loop
(lines 381-398). -/
theorem claimC5_main (t : String) (p : List (String × JsVal)) (l : VNodeList)
    (n : Nat) (h : Heap)
    (hnd : ((h.get n).childNodes).Nodup)
    (htag : lowerStr (h.get n).nodeName = lowerStr t)
    (hM : l.length < (h.get n).childNodes.length) :
    (((truncateChildren n l.length (applyProps n p h)).get n).childNodes
        = (h.get n).childNodes.take l.length
      ∧ ((truncateChildren n l.length (applyProps n p h)).get n).childNodes.length
        = l.length)
    ∧ renderResolve (VNode.velem t p (VChildren.clist l)) (some n) h
        = (match resolveKids n 0 l (truncateChildren n l.length (applyProps n p h)) with
           | Except.error e => Except.error e
           | Except.ok h2 => Except.ok (n, h2)) := by
  have hap : ((applyProps n p h).get n).childNodes = (h.get n).childNodes :=
    (get_applyProps_proj n p h n).2.1
  constructor
  · constructor
    · rw [childNodes_truncateChildren n l.length (applyProps n p h)
        (by rw [hap]; exact hnd) (by rw [hap]; omega), hap]
    · rw [childNodes_truncateChildren n l.length (applyProps n p h)
        (by rw [hap]; exact hnd) (by rw [hap]; omega), hap,
        List.length_take, Nat.min_eq_left (by omega)]
  · have hcond : ¬(lowerStr (h.get n).nodeName ≠ lowerStr t) := by
      rw [htag]
      simp
    simp only [renderResolve, resolveNode, resolveChildrenOf, if_neg hcond]

/-- Witness for C5: a `div` with two children against a one-element child
list — the truncation keeps exactly the first child. -/
theorem claimC5_witness :
    ((exParentHeap.get 0).childNodes).Nodup
    ∧ ((truncateChildren 0 1 (applyProps 0 [] exParentHeap)).get 0).childNodes
        = (exParentHeap.get 0).childNodes.take 1 := by
  refine ⟨by decide, ?_⟩
  have h := claimC5_main "div" [] (VNodeList.cons (VNode.real 1) VNodeList.nil)
    0 exParentHeap (by decide) rfl (by decide)
  exact h.1.1

/-- Claim C6, confirmed: reconciling a virtual node whose `children` field
is `None` against an existing real node leaves the node's child list (and
the tag of each child) unchanged, while the node's props may be assigned
(lines 377-378). -/
theorem claimC6_main (t : String) (p : List (String × JsVal)) (n : Nat) (h : Heap)
    (hwf : ∀ c ∈ (h.get n).childNodes, c < h.nodes.length) :
    (renderResolve (VNode.velem t p VChildren.cnone) (some n) h).map
        (fun pr => ((pr.2.get n).childNodes,
          (h.get n).childNodes.map (fun c => (pr.2.get c).nodeName)))
      = Except.ok ((h.get n).childNodes,
          (h.get n).childNodes.map (fun c => (h.get c).nodeName)) := by
  simp only [renderResolve, resolveChildrenOf, Except.map]
  refine congrArg Except.ok (Prod.ext ?_ ?_)
  · rw [(get_applyProps_proj _ _ _ n).2.1, childNodes_resolveNode]
  · refine List.map_congr_left ?_
    intro c hc
    rw [(get_applyProps_proj _ _ _ c).1]
    exact (namesAgree_resolveNode t (some n) h).2 c (hwf c hc)

/-- Witness for C6: a `div` with children `b`, `p`, reconciled against a
`children = None` virtual node carrying a prop assignment. -/
theorem claimC6_witness :
    (∀ c ∈ (exParentHeap.get 0).childNodes, c < exParentHeap.nodes.length)
    ∧ (renderResolve (VNode.velem "div" [("title", JsVal.vstr "x")] VChildren.cnone)
          (some 0) exParentHeap).map
        (fun pr => ((pr.2.get 0).childNodes,
          (exParentHeap.get 0).childNodes.map (fun c => (pr.2.get c).nodeName)))
      = Except.ok ((exParentHeap.get 0).childNodes,
          (exParentHeap.get 0).childNodes.map (fun c => (exParentHeap.get c).nodeName)) :=
  ⟨by decide,
   claimC6_main "div" [("title", JsVal.vstr "x")] 0 exParentHeap (by decide)⟩

/-- A successful top-level `__render_resolve` call (with the trailing
root-identity assertion) never renames an existing real node. -/
theorem renderApply_namesAgree (v : VNode) (outernode : Nat) (h h' : Heap)
    (heq : renderApply v outernode h = Except.ok h') : namesAgree h h' := by
  unfold renderApply at heq
  cases hres : renderResolve v (some outernode) h with
  | error e =>
      rw [hres] at heq
      exact Except.noConfusion heq
  | ok pr =>
      obtain ⟨r, h2⟩ := pr
      rw [hres] at heq
      dsimp only at heq
      by_cases hr : r = outernode
      · rw [if_pos hr] at heq
        rw [← Except.ok.inj heq]
        exact renderResolve_namesAgree v (some outernode) h r h2 hres
      · rw [if_neg hr] at heq
        exact Except.noConfusion heq

/-- Claim C4, confirmed: when the render step produces a dict virtual node
whose type differs case-insensitively from the outer anchor's tag,
`__render` raises the fatal `ValueError` before touching the real tree
(lines 330-333); and a successful render never changes the tag of the
widget's outer anchor node. -/
theorem claimC4_main (outernode : Nat) (h : Heap) (hn : outernode < h.nodes.length) :
    (∀ t p c, lowerStr t ≠ lowerStr (h.get outernode).nodeName →
      widgetRender (RenderOut.rdict t p c) outernode h
        = Except.error
            "ValueError: Widget._render_dom() must return root node with same element type as outernode.")
    ∧ (∀ out h', widgetRender out outernode h = Except.ok h' →
      (h'.get outernode).nodeName = (h.get outernode).nodeName) := by
  constructor
  · intro t p c hmis
    simp only [widgetRender, if_pos hmis]
  · intro out h' heq
    cases out with
    | rnone =>
        simp only [widgetRender] at heq
        rw [← Except.ok.inj heq]
    | rreal id =>
        simp only [widgetRender] at heq
        by_cases hid : id = outernode
        · rw [if_pos hid] at heq
          rw [← Except.ok.inj heq]
        · rw [if_neg hid] at heq
          exact Except.noConfusion heq
    | rstr s =>
        simp only [widgetRender] at heq
        exact (renderApply_namesAgree _ _ _ _ heq).2 outernode hn
    | rlist l =>
        simp only [widgetRender] at heq
        exact (renderApply_namesAgree _ _ _ _ heq).2 outernode hn
    | rdict t p c =>
        simp only [widgetRender] at heq
        by_cases hmis : lowerStr t ≠ lowerStr (h.get outernode).nodeName
        · rw [if_pos hmis] at heq
          exact Except.noConfusion heq
        · rw [if_neg hmis] at heq
          exact (renderApply_namesAgree _ _ _ _ heq).2 outernode hn

/-- Witness for C4: rendering a `p` dict against a `div` anchor errors;
rendering a `DIV` dict (case-insensitive match) succeeds and keeps the
anchor's tag. -/
theorem claimC4_witness :
    0 < exDivHeap.nodes.length
    ∧ lowerStr "p" ≠ lowerStr (exDivHeap.get 0).nodeName
    ∧ widgetRender (RenderOut.rdict "p" [] VChildren.cnone) 0 exDivHeap
        = Except.error
            "ValueError: Widget._render_dom() must return root node with same element type as outernode."
    ∧ widgetRender (RenderOut.rdict "DIV" [] VChildren.cnone) 0 exDivHeap
        = Except.ok exDivHeap
    ∧ ((exDivHeap.get 0)).nodeName = (exDivHeap.get 0).nodeName := by
  refine ⟨by decide, by decide, ?_, by rfl, ?_⟩
  · exact (claimC4_main 0 exDivHeap (by decide)).1 "p" [] VChildren.cnone (by decide)
  · exact (claimC4_main 0 exDivHeap (by decide)).2
      (RenderOut.rdict "DIV" [] VChildren.cnone) exDivHeap (by rfl)

/-! ## `set_parent` helper lemmas -/

theorem not_mem_removeSelf (w : Nat) (l : List (Option Nat)) :
    some w ∉ removeSelf w l := by
  simp [removeSelf, List.mem_filter]

/-- `set_parent` is a no-op when the new parent is the current parent and
no position is given (line 627). -/
theorem setParent_noop (st : WState) (w B : Nat) (hB : st.parentOf w = some B) :
    setParent st w (some B) none = st := by
  rw [setParent, if_pos ⟨hB.symm, rfl⟩]

/-- `set_parent(None)`: clears the parent property and removes every
occurrence of the widget from the old parent's children. -/
theorem setParent_detach (st : WState) (w P : Nat) (hP : st.parentOf w = some P) :
    (setParent st w none none).parentOf w = none
    ∧ (setParent st w none none).childrenOf P = removeSelf w (st.childrenOf P)
    ∧ ∀ x, x ≠ P → (setParent st w none none).childrenOf x = st.childrenOf x := by
  refine ⟨?_, ?_, ?_⟩
  · simp [setParent, hP]
  · simp [setParent, hP]
  · intro x hx
    simp [setParent, hP, hx]

/-- `set_parent(B)` for an orphan widget: sets the parent property and
appends the widget to `B`'s children. -/
theorem setParent_attach_of_none (st : WState) (w B : Nat) (hA : st.parentOf w = none) :
    (setParent st w (some B) none).parentOf w = some B
    ∧ (setParent st w (some B) none).childrenOf B
        = removeSelf w (st.childrenOf B) ++ [some w]
    ∧ ∀ x, x ≠ B → (setParent st w (some B) none).childrenOf x = st.childrenOf x := by
  refine ⟨?_, ?_, ?_⟩
  · simp [setParent, hA]
  · simp [setParent, hA, removeSelf]
  · intro x hx
    simp [setParent, hA, hx]

/-- `set_parent(B)` when the current parent is a different widget `A`:
sets the parent property, removes the widget from `A`'s children and
appends it to `B`'s children. -/
theorem setParent_attach_of_other (st : WState) (w B A : Nat)
    (hA : st.parentOf w = some A) (hAB : A ≠ B) :
    (setParent st w (some B) none).parentOf w = some B
    ∧ (setParent st w (some B) none).childrenOf B
        = removeSelf w (st.childrenOf B) ++ [some w]
    ∧ (setParent st w (some B) none).childrenOf A = removeSelf w (st.childrenOf A)
    ∧ ∀ x, x ≠ B → x ≠ A →
        (setParent st w (some B) none).childrenOf x = st.childrenOf x := by
  refine ⟨?_, ?_, ?_, ?_⟩
  · simp [setParent, hA, hAB, Ne.symm hAB]
  · simp [setParent, hA, hAB, Ne.symm hAB, removeSelf]
  · simp [setParent, hA, hAB, Ne.symm hAB]
  · intro x hx hxa
    simp [setParent, hA, hAB, Ne.symm hAB, hx, hxa]

/-- Claim C7, confirmed: for any widget `w` (with any current parent `A`,
including none) and any widget `B`, `set_parent(B)` followed by
`set_parent(None)` leaves both `A`'s and `B`'s children free of `w` and
leaves `w`'s parent property equal to none. -/
theorem claimC7_main (s : WState) (w B : Nat) :
    ((setParent (setParent s w (some B) none) w none none).parentOf w = none)
    ∧ (some w ∉ (setParent (setParent s w (some B) none) w none none).childrenOf B)
    ∧ (∀ a : Nat, s.parentOf w = some a →
        some w ∉ (setParent (setParent s w (some B) none) w none none).childrenOf a) := by
  rcases hA : s.parentOf w with _ | A
  · have h1 := setParent_attach_of_none s w B hA
    have h2 := setParent_detach (setParent s w (some B) none) w B h1.1
    refine ⟨h2.1, ?_, ?_⟩
    · rw [h2.2.1]
      exact not_mem_removeSelf _ _
    · intro a ha
      exact absurd ha (by simp)
  · by_cases hAB : A = B
    · subst hAB
      rw [setParent_noop s w A hA]
      have h2 := setParent_detach s w A hA
      refine ⟨h2.1, ?_, ?_⟩
      · rw [h2.2.1]
        exact not_mem_removeSelf _ _
      · intro a ha
        have haA : a = A := (Option.some.inj ha).symm
        rw [haA, h2.2.1]
        exact not_mem_removeSelf _ _
    · have h1 := setParent_attach_of_other s w B A hA hAB
      have h2 := setParent_detach (setParent s w (some B) none) w B h1.1
      refine ⟨h2.1, ?_, ?_⟩
      · rw [h2.2.1]
        exact not_mem_removeSelf _ _
      · intro a ha
        have haA : a = A := (Option.some.inj ha).symm
        rw [haA, h2.2.2 A (fun hEq => hAB hEq)]
        rw [h1.2.2.1]
        exact not_mem_removeSelf _ _

/-- Witness for C7: widget 1 (child of widget 5) re-parented to widget 2,
then orphaned. -/
theorem claimC7_witness :
    (setParent (setParent exWState 1 (some 2) none) 1 none none).parentOf 1 = none
    ∧ some 1 ∉ (setParent (setParent exWState 1 (some 2) none) 1 none none).childrenOf 2
    ∧ exWState.parentOf 1 = some 5
    ∧ some 1 ∉ (setParent (setParent exWState 1 (some 2) none) 1 none none).childrenOf 5 := by
  have h := claimC7_main exWState 1 2
  exact ⟨h.1, h.2.1, by decide, h.2.2 5 (by decide)⟩

end Flexx
